import Mathlib

/-!
# Verification of `onprem/ingest/stores/sparse.py` (`SparseStore`)

Shallow embedding of the `SparseStore` full-text search wrapper and of the
behaviour of the external Whoosh search engine at the interface the wrapper
uses.  The wrapper code (`sparse.py`) is translated line by line.  Whoosh is a
third-party dependency; the parts of its contract the wrapper relies on are
modelled from Whoosh 2.7's documented API semantics and are marked as such in
the doc comments:

* `Searcher.search(q, limit=L)` raises `ValueError("limit must be >= 1")`
  when `L < 1`; otherwise it returns a `Results` object holding the top-`L`
  scored hits (best first).
* `Results.scored_length()` returns the number of scored documents, i.e. at
  most the `limit` given to `search` ("equal to or less than the limit
  keyword argument" per the Whoosh API docs), so it equals
  `min(match count, limit)`.
* `len(results)` materialises the full docset and returns the exact number of
  matching documents, independent of the limit.
* `Searcher.search_page(q, pagenum, pagelen)` raises
  `ValueError("pagenum must be >= 1")` for `pagenum < 1` and is otherwise
  equivalent (per its docstring) to
  `ResultsPage(search(q, limit=pagenum*pagelen), pagenum, pagelen)`.
* `ResultsPage.__init__` computes `total = len(results)`,
  `pagecount = ceil(total / pagelen)` and raises
  `ValueError("Asked for page %s of %s")` when `pagenum > 1` and
  `pagenum > pagecount`; otherwise the page window is
  `results[offset : offset + pagelen]` with `offset = (pagenum-1)*pagelen`,
  and `ResultsPage.scored_length()` delegates to the inner `Results`.
* A `Results` object is truthy iff it is non-empty; with `limit=None` all
  matching documents are returned.

Matching and scoring themselves (parsing, BM25, filters) are kept abstract:
an engine is a function from (fields, query string, filter) to the full
best-first list of matching stored-field dictionaries.
-/

/-- A Python value as it occurs in stored fields / document metadata.
`pbool` must be distinguished from `pint` because `sparse.py` checks
`isinstance(v, bool)` before `isinstance(v, (int, float))` (Python `bool`
is a subclass of `int`).  Float payloads are modelled as exact rationals;
`pother` stands for every other Python type (lists, dicts, `None`, ...). -/
inductive PyVal where
  | pbool (b : Bool)
  | pstr (s : String)
  | pint (n : Int)
  | pfloat (q : Rat)
  | pother
deriving DecidableEq, Repr

/-- A stored-fields dictionary (Whoosh `Hit` / the dict `d` built by
`process_result`), modelled as an association list. -/
abbrev Hitd := List (String × PyVal)

/-- Python-level exceptions that the modelled code can raise.  Each
constructor corresponds to one `raise` site: -/
inductive PyErr where
  /-- Whoosh `Searcher.search`: `ValueError("limit must be >= 1")`. -/
  | valueErrorLimit
  /-- Whoosh `Searcher.search_page`: `ValueError("pagenum must be >= 1")`. -/
  | valueErrorPagenum
  /-- Whoosh `ResultsPage.__init__`: `ValueError("Asked for page %s of %s")`. -/
  | valueErrorPage
  /-- `SparseStore.__init__`: `ValueError('index_name is required if persist_directory is supplied')`. -/
  | valueErrorIndexName
  /-- `SparseStore.initialize_index`: `ValueError("There is already an existing index named ...")`. -/
  | valueErrorIndexExists
  /-- Python `ZeroDivisionError` (from `total_hits/limit` with `limit == 0`). -/
  | zeroDivisionError
  /-- Python `TypeError` (e.g. `os.path.exists(None)` inside `whoosh.index.exists_in`). -/
  | typeErrorNonePath
  /-- Whoosh error when opening / reading an index that is absent from storage. -/
  | emptyIndexError
deriving DecidableEq, Repr

/-- Python's `\w` for the ASCII range: letters, digits and underscore
(the queries this development evaluates are ASCII). -/
def isPyWordChar (c : Char) : Bool :=
  c.isAlphanum || c == '_'

/-- Python's `\s` character class: space, tab, newline, carriage return,
vertical tab and form feed. -/
def isPySpace (c : Char) : Bool :=
  c == ' ' || c == '\t' || c == '\n' || c == '\r' || c == '\x0b' || c == '\x0c'

/-- `re.sub(r'(\w)\?([\s\"]|$)', r'\1\2', query)` from
`SparseStore._preprocess_query`: scanning left to right, a question mark that
directly follows a word character and is followed by whitespace, a double
quote, or the end of the string is deleted; the matched span (including the
group-2 character) is consumed, and scanning continues after it.  A position
where the pattern does not match advances the scan by one character; since
`'?'` is not a word character, a failed attempt at `c` directly continues at
the character after the `'?'`, which the second equation inlines. -/
def subQmark : List Char → List Char
  | [] => []
  | c :: '?' :: d :: rest =>
    if isPyWordChar c && (isPySpace d || d == '"') then c :: d :: subQmark rest
    else c :: '?' :: subQmark (d :: rest)
  | c :: '?' :: [] => if isPyWordChar c then [c] else [c, '?']
  | c :: rest => c :: subQmark rest

/-- `query[:-1] if query.endswith('?')`: drop a single trailing `'?'`. -/
def stripTrailingQmark (l : List Char) : List Char :=
  if l.getLast? = some '?' then l.dropLast else l

/-- `SparseStore._preprocess_query`: strip one `'?'` from the very end of the
query, then apply the `(\w)\?([\s\"]|$)` substitution. -/
def preprocess_query (q : String) : String :=
  ⟨subQmark (stripTrailingQmark q.data)⟩

/-- `f'({q}) AND ({where_document})'` composition in `SparseStore.query`
(applied after preprocessing, only when `where_document` is supplied). -/
def composeWhere (q : String) (where_document : Option String) : String :=
  match where_document with
  | some wd => "(" ++ q ++ ") AND (" ++ wd ++ ")"
  | none => q

/-- The `filters` post-processing in `SparseStore.query`: an empty dict is
falsy, so `combined_filter` stays `None`; otherwise the field/value pairs are
AND-ed into a filter. -/
def combinedFilter (filters : List (String × String)) : Option (List (String × String)) :=
  if filters.isEmpty then none else some filters

/-- Abstraction of the Whoosh parser + searcher for a fixed index state:
given the searched fields, the (already preprocessed and composed) query
string and the optional AND-filter, return the full best-first list of
matching stored-field dictionaries.  `search(limit=L)` windows this list;
the wrapper under verification never looks inside this function. -/
abbrev MatchFn := List String → String → Option (List (String × String)) → List Hitd

/-- The highlighter at the interface used by `process_result`:
models the value of `r.highlights(f) or r[f]` for a hit `r` and field `f`. -/
abbrev HighlightFn := Hitd → String → String

/-- Modelled from the spec: `doc_from_dict` (in `onprem/ingest/helpers`, not
part of the sources under verification) converts a stored-field dict into a
LangChain `Document` carrying the same fields; §4.5 of the spec treats the
conversion as field-preserving ("Attach the similarity as a `score` field on
each candidate"), so it is modelled as the identity on the field map. -/
def doc_from_dict (h : Hitd) : Hitd := h

/-- Python `str.endswith`, computed on the character list (kernel-reducible,
unlike `String.endsWith`). -/
def pyEndsWith (s suffix : String) : Bool :=
  List.isSuffixOf suffix.data s.data

/-- Python `str.startswith`, computed on the character list. -/
def pyStartsWith (s pre : String) : Bool :=
  List.isPrefixOf pre.data s.data

/-- Look up field `f` in hit `h` and return its string payload, if any. -/
def lookupStr (h : Hitd) (f : String) : Option String :=
  match h.lookup f with
  | some (PyVal.pstr s) => some s
  | _ => none

/-- `process_result` from `SparseStore.query`: start from `d = dict(r)`;
when highlighting, for every searched field whose value is a non-empty
string, add `d['hl_'+f] = r.highlights(f) or r[f]`; finally convert via
`doc_from_dict` unless `return_dict` is set.  (Documents indexed by this
store always carry `page_content`, so the `KeyError` of `r[f]` on an absent
field is not modelled: an absent or non-string field simply adds no
highlight.) -/
def process_result (hlf : HighlightFn) (fields : List String)
    (highlight return_dict : Bool) (h : Hitd) : Hitd :=
  let d :=
    if highlight then
      fields.foldl
        (fun d f =>
          match lookupStr h f with
          | some s => if s ≠ "" then d ++ [("hl_" ++ f, PyVal.pstr (hlf h f))] else d
          | none => d) h
    else h
  if return_dict then d else doc_from_dict d

/-- Exact value of Python's `math.ceil(a / b)` for `b ≥ 1` (`a` a count, so a
natural number); Lean's `Int` division is Euclidean, hence `-((-a) / b)` is
the ceiling of `a / b`.  Every evaluation site in the modelled code has
`b ≥ 1` (the searcher has already rejected `limit < 1`). -/
def mathCeilDiv (a : Nat) (b : Int) : Int :=
  -((-(a : Int)) / b)

/-- Python evaluation of `math.ceil(total_hits / limit)`: raises
`ZeroDivisionError` when `limit == 0`, otherwise the exact ceiling (float
rounding is immaterial at the magnitudes involved). -/
def mathCeilDivChecked (a : Nat) (b : Int) : Except PyErr Int :=
  if b = 0 then .error .zeroDivisionError else .ok (mathCeilDiv a b)

/-- The result dictionary `{'hits': ..., 'total_hits': ...}` returned by
`SparseStore.query`. -/
structure QueryOut where
  hits : List Hitd
  total_hits : Nat
deriving DecidableEq, Repr

deriving instance DecidableEq for Except

/-- `SparseStore.query` (the materialised branch; the
`return_generator=True` branch computes the same `hits`/`total_hits` values
lazily).  Steps, in source order:
1. `q = self._preprocess_query(q)`;
2. `q = f'({q}) AND ({where_document})'` when a sub-query is supplied;
3. build `combined_filter` from `filters`;
4. `get_search_results`: for `page == 1` a plain `searcher.search(parsed, limit=limit,
   filter=...)`, otherwise `searcher.search_page(parsed, page, limit, filter=...)`
   (see the module comment for the modelled Whoosh semantics of both);
5. `total_hits = results.scored_length()`;
6. `if page > math.ceil(total_hits/limit): results = []`;
7. map `process_result` over the remaining window. -/
def queryFn (am : MatchFn) (hlf : HighlightFn) (q : String) (fields : List String)
    (highlight : Bool) (limit page : Int) (return_dict : Bool)
    (filters : List (String × String)) (where_document : Option String) :
    Except PyErr QueryOut :=
  let q1 := composeWhere (preprocess_query q) where_document
  let ms := am fields q1 (combinedFilter filters)
  if page = 1 then
    if limit < 1 then .error .valueErrorLimit
    else
      let res := ms.take limit.toNat
      let th := res.length
      match mathCeilDivChecked th limit with
      | .error e => .error e
      | .ok pc =>
        if page > pc then .ok ⟨[], th⟩
        else .ok ⟨res.map (process_result hlf fields highlight return_dict), th⟩
  else
    if page < 1 then .error .valueErrorPagenum
    else if page * limit < 1 then .error .valueErrorLimit
    else
      let inner := ms.take (page * limit).toNat
      let total := ms.length
      let pagecount := mathCeilDiv total limit
      if page > pagecount then .error .valueErrorPage
      else
        let offset := ((page - 1) * limit).toNat
        let pageHits := (inner.drop offset).take limit.toNat
        let th := inner.length
        match mathCeilDivChecked th limit with
        | .error e => .error e
        | .ok pc =>
          if page > pc then .ok ⟨[], th⟩
          else .ok ⟨pageHits.map (process_result hlf fields highlight return_dict), th⟩

/-- `SparseStore.get_doc`: `r = self.query(f'id:{id}', return_dict=True)`
(all other arguments at their defaults: `fields=["page_content"]`,
`highlight=True`, `limit=10`, `page=1`, no filters, no sub-query), then
`r['hits'][0] if len(r['hits']) > 0 else None`. -/
def get_doc (am : MatchFn) (hlf : HighlightFn) (id : String) :
    Except PyErr (Option Hitd) :=
  match queryFn am hlf ("id:" ++ id) ["page_content"] true 10 1 true [] none with
  | .error e => .error e
  | .ok r => .ok r.hits.head?

/-- Python `d['score'] = v`: replace any existing binding of `"score"` and

bind the key to `v` (assoc-list position is immaterial to the claims). -/
def dictSet (h : Hitd) (k : String) (v : PyVal) : Hitd :=
  h.filter (fun p => p.1 ≠ k) ++ [(k, v)]

/-- The similarity score attached to a reranked hit (`x['score']`);
defaults to `0` when absent (the reranker always sets it). -/
def getScore (h : Hitd) : Rat :=
  match h.lookup "score" with
  | some (PyVal.pfloat q) => q
  | _ => 0

/-- `r['page_content']` of a candidate (the reranker embeds this text);
documents indexed by this store always carry `page_content`. -/
def getText (h : Hitd) : String :=
  match lookupStr h "page_content" with
  | some s => s
  | none => ""

/-- One insertion step of Python's `sorted(results, key=lambda x: x['score'],
reverse=True)`: stable descending order, so an element is placed after every
earlier element whose score is greater than or equal to its own. -/
def insertByScoreDesc (x : Hitd) : List Hitd → List Hitd
  | [] => [x]
  | y :: ys => if getScore x ≤ getScore y then y :: insertByScoreDesc x ys
               else x :: y :: ys

/-- Python's `sorted(..., key=lambda x: x['score'], reverse=True)` as a
stable insertion sort. -/
def sortByScoreDesc : List Hitd → List Hitd
  | [] => []
  | x :: xs => insertByScoreDesc x (sortByScoreDesc xs)

/-- The cosine-similarity capability of the external embedding provider:
`cs query text` models `util.pytorch_cos_sim(embed_query(query),
embed_documents([...text...]))` for one candidate text (exact rationals
stand in for the float scores; only comparisons between scores matter). -/
abbrev CosSimFn := String → String → Rat

/-- `SparseStore.semantic_search`:
1. `results = self.query(query, limit=n_candidates, return_dict=True,
   filters=filters, where_document=where_document)['hits']`;
2. `if not results: return []` (the embedding provider is not invoked —
   the model never applies `cs` on this path);
3. embed the query and every candidate's `page_content`, compute cosine
   similarities, set `results[i]['score']`;
4. sort descending by score (stable), truncate to `k`, convert each dict
   via `doc_from_dict`. -/
def semantic_search (am : MatchFn) (hlf : HighlightFn) (cs : CosSimFn)
    (q : String) (k n_candidates : Int)
    (filters : List (String × String)) (where_document : Option String) :
    Except PyErr (List Hitd) :=
  match queryFn am hlf q ["page_content"] true n_candidates 1 true filters where_document with
  | .error e => .error e
  | .ok r =>
    let results := r.hits
    if results.isEmpty then .ok []
    else
      let withScore := results.map (fun h => dictSet h "score" (PyVal.pfloat (cs q (getText h))))
      let sorted := sortByScoreDesc withScore
      .ok ((sorted.take k.toNat).map doc_from_dict)

/-- A record held by an index, reduced to its field values (field name ↦
single stored term; the `KEYWORD(..., commas=True)` fields of the default
schema hold one path/term per record in this store's use). -/
abbrev Recd := List (String × String)

/-- The stored-field names of `DEFAULT_SCHEMA` (every explicitly declared
field of the schema is `stored=True`; Whoosh's `Schema.stored_names()`
enumerates the explicitly declared fields, not the `*_t`/`*_k`/`*_b`/
`*_n`/`*_d` glob patterns). -/
def DEFAULT_STORED_NAMES : List String :=
  ["page_content", "id", "source", "source_search", "filepath",
   "filepath_search", "filename", "ocr", "table", "markdown", "page",
   "document_title", "md5", "mimetype", "extension", "filesize",
   "createdate", "modifydate", "tags", "notes", "msg"]

/-- On-disk (or in-RAM) contents of one index: its schema's stored-field
names and its records. -/
structure IndexData where
  schema : List String
  docs : List Recd
deriving DecidableEq, Repr

/-- `default_schema()` applied at index creation: an empty index carrying
`DEFAULT_SCHEMA`. -/
def defaultIndexData : IndexData :=
  ⟨DEFAULT_STORED_NAMES, []⟩

/-- The live index handle `self.ix`.  A `disk` handle is a Whoosh
`FileIndex`: it names a `(path, index_name)` location and reads the latest
committed generation from storage at each operation.  A `ram` handle is a
`RamStorage` index holding its own contents. -/
inductive IxHandle where
  | disk (path name : String)
  | ram (d : IndexData)
deriving DecidableEq, Repr

/-- The instance state a `SparseStore` keeps (the embedding-model handle set
by `init_embedding_model` plays no role in the claims and is omitted). -/
structure StoreState where
  persist_directory : Option String
  index_name : String
  ix : IxHandle
deriving DecidableEq, Repr

/-- Persistent storage: a finite map from `(path, index_name)` to index
contents. -/
abbrev FS := List ((String × String) × IndexData)

/-- Look up the index stored at `(path, name)`. -/
def fsGet (fs : FS) (path name : String) : Option IndexData :=
  fs.lookup (path, name)

/-- `whoosh.index.create_in(path, indexname=name, schema=...)`: (re)write the
storage at `(path, name)` to a fresh index. -/
def fsSet (fs : FS) (path name : String) (d : IndexData) : FS :=
  ((path, name), d) :: fs.filter (fun p => p.1 ≠ (path, name))

/-- `whoosh.index.exists_in(path, indexname=name)` for a real path. -/
def existsIn (fs : FS) (path name : String) : Bool :=
  (fsGet fs path name).isSome

/-- Python truthiness of the `persist_directory` argument (`None` and the
empty string are falsy). -/
def truthyOpt : Option String → Bool
  | none => false
  | some s => !s.isEmpty

/-- `SparseStore.initialize_index(index_path, index_name, schema=None)`:
raise if an index already exists at the location, otherwise create one with
the given schema (`DEFAULT_SCHEMA` when none is supplied) and return its
handle.  (`os.makedirs` on the containing directory has no observable effect
in this model.) -/
def initialize_index (fs : FS) (index_path index_name : String)
    (schema : Option (List String)) : Except PyErr (IxHandle × FS) :=
  if existsIn fs index_path index_name then .error .valueErrorIndexExists
  else
    let d : IndexData := ⟨schema.getD DEFAULT_STORED_NAMES, []⟩
    .ok (.disk index_path index_name, fsSet fs index_path index_name d)

/-- The in-memory warning emitted by `SparseStore.__init__` when no
(truthy) `persist_directory` is supplied. -/
def ramWarning : String :=
  "No persist_directory was supplied, so an in-memory only index was created using DEFAULT_SCHEMA"

/-- `SparseStore.__init__(persist_directory, index_name)`:
1. `if self.persist_directory and not self.index_name: raise ValueError`;
2. with a truthy `persist_directory`: create via `initialize_index` when the
   index is absent, otherwise attach with `index.open_dir`;
3. otherwise (Python truthiness sends both `None` and `""` here):
   `warnings.warn(...)` and create an in-memory `RamStorage` index with
   `default_schema()`.
The returned triple is (store state, storage, emitted warnings). -/
def initStore (fs : FS) (persist_directory : Option String) (index_name : String) :
    Except PyErr (StoreState × FS × List String) :=
  if truthyOpt persist_directory && index_name.isEmpty then
    .error .valueErrorIndexName
  else
    match persist_directory with
    | some p =>
      if p.isEmpty then
        .ok (⟨persist_directory, index_name, .ram defaultIndexData⟩, fs,
             [ramWarning])
      else if !(existsIn fs p index_name) then
        match initialize_index fs p index_name none with
        | .error e => .error e
        | .ok (h, fs') => .ok (⟨persist_directory, index_name, h⟩, fs', [])
      else
        .ok (⟨persist_directory, index_name, .disk p index_name⟩, fs, [])
    | none =>
      .ok (⟨persist_directory, index_name, .ram defaultIndexData⟩, fs,
           [ramWarning])

/-- `SparseStore.get_size()` (with `include_deleted=False`, i.e.
`self.ix.doc_count()`): a `FileIndex` handle reads the latest committed
contents at its `(path, name)` location (raising when nothing is stored
there any more); a RAM handle counts its own records. -/
def get_size (fs : FS) (s : StoreState) : Except PyErr Nat :=
  match s.ix with
  | .ram d => .ok d.docs.length
  | .disk p n =>
    match fsGet fs p n with
    | some d => .ok d.docs.length
    | none => .error .emptyIndexError

/-- `SparseStore.erase(confirm)`:
1. `shall = input(...) == "Y"` when `confirm`, else `shall = True`;
2. `if shall and index.exists_in(self.persist_directory, indexname=...)`
   — the conjunction short-circuits, and `exists_in(None, ...)` raises
   `TypeError` (`os.path.exists(None)` inside it does);
3. when both hold, `index.create_in(self.persist_directory, indexname=...,
   schema=default_schema())` rewrites the storage; the method returns `True`
   without ever reassigning `self.ix`;
4. every other path returns `False`.
The returned triple is (store state, storage, return value). -/
def erase (s : StoreState) (fs : FS) (confirm : Bool) (userInput : String) :
    Except PyErr (StoreState × FS × Bool) :=
  let shall := if confirm then userInput == "Y" else true
  if shall then
    match s.persist_directory with
    | none => .error .typeErrorNonePath
    | some p =>
      if existsIn fs p s.index_name then
        .ok (s, fsSet fs p s.index_name defaultIndexData, true)
      else
        .ok (s, fs, false)
  else
    .ok (s, fs, false)

/-- `Prefix(field, pfx)` match on one record: true iff the record has the
field and its term starts with `pfx`. -/
def fieldStartsWith (field pfx : String) (r : Recd) : Bool :=
  match r.lookup field with
  | some v => pyStartsWith v pfx
  | none => false

/-- Result of `SparseStore.delete_by_prefix` on the index contents: the
remaining records, the returned count, and whether a writer transaction was
opened and committed. -/
structure DeleteOut where
  docs : List Recd
  count : Nat
  wrote : Bool
deriving DecidableEq, Repr

/-- `SparseStore.delete_by_prefix(pfx, field)`:
`results = searcher.search(Prefix(field, pfx), limit=None)` (all matches;
a Whoosh `Results` is truthy iff non-empty); if truthy, delete every matched
docnum in one writer commit and return `len(results)`; otherwise return `0`
without opening a writer. -/
def delete_by_prefix (docs : List Recd) (pfx field : String) : DeleteOut :=
  let results := docs.filter (fieldStartsWith field pfx)
  if results.isEmpty then ⟨docs, 0, false⟩
  else ⟨docs.filter (fun r => !(fieldStartsWith field pfx r)), results.length, true⟩

/-- The suffix-resolution step of `SparseStore.doc2dict` for one metadata
pair `(k, v)`: `some suffix` means the pair is written to the record under
`k ++ suffix`; `none` means the pair is dropped.  Source order: stored-name
check first, then `isinstance(v, bool)` (before `int`, as in Python), then
strings (with the `_date` marker), then `int`/`float`. -/
def resolveSuffix (stored_names : List String) (k : String) (v : PyVal) :
    Option String :=
  if stored_names.contains k then some ""
  else
    match v with
    | .pbool _ => some (if pyEndsWith k "_b" then "" else "_b")
    | .pstr _ =>
      if pyEndsWith k "_date" then some "_d"
      else some (if pyEndsWith k "_k" then "" else "_k")
    | .pint _ => some (if pyEndsWith k "_n" then "" else "_n")
    | .pfloat _ => some (if pyEndsWith k "_n" then "" else "_n")
    | .pother => none

/-- The metadata loop of `SparseStore.doc2dict` (the construction of `d`
from `doc.metadata.items()`; the `id`, `page_content`, `source_search` and
`filepath_search` assignments that follow operate on other keys and are
outside claim C5).  Python dict insertion keeps one binding per key; the
claims evaluate it on metadata with pairwise-distinct resolved keys. -/
def doc2dictMeta (stored_names : List String)
    (metadata : List (String × PyVal)) : List (String × PyVal) :=
  metadata.foldl
    (fun d kv =>
      match resolveSuffix stored_names kv.1 kv.2 with
      | some suffix => d ++ [(kv.1 ++ suffix, kv.2)]
      | none => d) []


/-- The full best-first match list that the searcher windows for a given
`query(q, fields, ..., filters, where_document)` call: matches of the
preprocessed query text with the composed sub-query, under the combined
filter. -/
def fullMatches (am : MatchFn) (fields : List String) (q : String)
    (filters : List (String × String)) (wd : Option String) : List Hitd :=
  am fields (composeWhere (preprocess_query q) wd) (combinedFilter filters)

/-- The per-pair metadata mapping exactly as claim C5 states it: a stored
name is kept unchanged; a boolean gets `_b` unless already suffixed; a
string under a `_date` key gets `_d`; any other string gets `_k` unless
already suffixed; a numeric value gets `_n` unless already suffixed; any
other value is dropped. -/
def claimFieldMap (stored_names : List String) (kv : String × PyVal) :
    Option (String × PyVal) :=
  if stored_names.contains kv.1 then some kv
  else
    match kv.2 with
    | .pbool _ => some (if pyEndsWith kv.1 "_b" then kv else (kv.1 ++ "_b", kv.2))
    | .pstr _ =>
      if pyEndsWith kv.1 "_date" then some (kv.1 ++ "_d", kv.2)
      else some (if pyEndsWith kv.1 "_k" then kv else (kv.1 ++ "_k", kv.2))
    | .pint _ => some (if pyEndsWith kv.1 "_n" then kv else (kv.1 ++ "_n", kv.2))
    | .pfloat _ => some (if pyEndsWith kv.1 "_n" then kv else (kv.1 ++ "_n", kv.2))
    | .pother => none

/-- Splitting a list by a predicate preserves its length. -/
theorem length_filter_add_length_filter_not {α : Type} (l : List α) (p : α → Bool) :
    (l.filter p).length + (l.filter (fun a => !(p a))).length = l.length := by
  induction l with
  | nil => simp
  | cons a t ih =>
    by_cases h : p a = true <;> simp [List.filter_cons, h] <;> omega

/-- Claim C4: `delete_by_prefix(prefix, field)` removes exactly the records whose
`field` value starts with the prefix, returns their number (so the index
count drops by exactly that number), opens a writer only when something
matched, and treats "no matches" as success returning `0` with the contents
untouched. -/
theorem delete_by_prefix_spec (docs : List Recd) (pfx field : String) :
    ( delete_by_prefix docs pfx field).docs =
        docs.filter (fun r => !(fieldStartsWith field pfx r)) ∧
    ( delete_by_prefix docs pfx field).count =
        (docs.filter (fieldStartsWith field pfx)).length ∧
    docs.length =
        ( delete_by_prefix docs pfx field).docs.length +
          ( delete_by_prefix docs pfx field).count ∧
    ( delete_by_prefix docs pfx field).wrote =
        !(docs.filter (fieldStartsWith field pfx)).isEmpty ∧
    ((docs.filter (fieldStartsWith field pfx)).isEmpty = true →
        delete_by_prefix docs pfx field = ⟨docs, 0, false⟩) := by
  unfold delete_by_prefix
  by_cases hemp : (docs.filter (fieldStartsWith field pfx)).isEmpty = true
  · have hnil : docs.filter (fieldStartsWith field pfx) = [] :=
      List.isEmpty_iff.mp hemp
    have hall : docs.filter (fun r => !(fieldStartsWith field pfx r)) = docs := by
      rw [List.filter_eq_self]
      intro a ha
      by_contra hcon
      have : fieldStartsWith field pfx a = true := by
        revert hcon; cases fieldStartsWith field pfx a <;> simp
      have : a ∈ docs.filter (fieldStartsWith field pfx) :=
        List.mem_filter.mpr ⟨ha, this⟩
      simp [hnil] at this
    simp [hemp, hnil, hall]
  · have h := length_filter_add_length_filter_not docs (fieldStartsWith field pfx)
    simp only [hemp]
    refine ⟨by simp, by simp, by simpa using by omega, by simp [hemp], by simp [hemp]⟩

/-- Spec example instance of C4 (the prefix-deletion completeness test of
spec §8): three sources, two under `/a/b`, both removed, count 2. -/
theorem delete_by_prefix_spec_witness :
    delete_by_prefix
        [[("source", "/a/b/x.pdf")], [("source", "/a/b/y.pdf")], [("source", "/a/c/z.pdf")]]
        "/a/b" "source" = ⟨[[("source", "/a/c/z.pdf")]], 2, true⟩ ∧
    (([[("source", "/a/b/x.pdf")], [("source", "/a/b/y.pdf")],
       [("source", "/a/c/z.pdf")]].filter (fieldStartsWith "source" "/a/b")).isEmpty = true →
     delete_by_prefix
        [[("source", "/a/b/x.pdf")], [("source", "/a/b/y.pdf")], [("source", "/a/c/z.pdf")]]
        "/a/b" "source" = ⟨[[("source", "/a/b/x.pdf")], [("source", "/a/b/y.pdf")],
                            [("source", "/a/c/z.pdf")]], 0, false⟩) :=
  ⟨by decide,
   (delete_by_prefix_spec
     [[("source", "/a/b/x.pdf")], [("source", "/a/b/y.pdf")], [("source", "/a/c/z.pdf")]]
     "/a/b" "source").2.2.2.2⟩

/-- Appending the empty string is the identity. -/
theorem str_append_empty (s : String) : s ++ "" = s := by
  cases s
  show String.mk _ = _
  simp [String.append]

/-- The source's suffix resolution produces exactly the claim's per-pair
mapping. -/
theorem claimFieldMap_eq_resolve (sn : List String) (kv : String × PyVal) :
    claimFieldMap sn kv =
      (resolveSuffix sn kv.1 kv.2).map (fun suf => (kv.1 ++ suf, kv.2)) := by
  obtain ⟨k, v⟩ := kv
  cases v <;>
    simp only [claimFieldMap, resolveSuffix] <;>
    split_ifs <;>
    simp [str_append_empty]

/-- The metadata loop, acc-generalised. -/
theorem doc2dictMeta_go (sn : List String) (meta : List (String × PyVal))
    (acc : List (String × PyVal)) :
    meta.foldl
      (fun d kv =>
        match resolveSuffix sn kv.1 kv.2 with
        | some suffix => d ++ [(kv.1 ++ suffix, kv.2)]
        | none => d) acc = acc ++ meta.filterMap (claimFieldMap sn) := by
  induction meta generalizing acc with
  | nil => simp
  | cons kv t ih =>
    rw [List.foldl_cons, ih, List.filterMap_cons, claimFieldMap_eq_resolve]
    cases hr : resolveSuffix sn kv.1 kv.2 <;> simp [hr]

/-- Claim C5: every metadata pair is mapped by `doc2dict` exactly as the claim
describes — stored names kept unchanged, booleans suffixed `_b`, `_date`
strings suffixed `_d`, other strings suffixed `_k`, numerics suffixed `_n`
(each unless already suffixed), and pairs of any other type silently
dropped. -/
theorem doc2dict_field_mapping (sn : List String) (meta : List (String × PyVal)) :
    doc2dictMeta sn meta = meta.filterMap (claimFieldMap sn) := by
  unfold doc2dictMeta
  exact doc2dictMeta_go sn meta []

/-- Looking up the location just written by `fsSet` returns the new
contents. -/
theorem fsGet_fsSet (fs : FS) (path name : String) (d : IndexData) :
    fsGet (fsSet fs path name d) path name = some d := by
  simp [fsGet, fsSet, List.lookup]

/-- Claim C7: a persistent store with an empty `index_name` is rejected with a
configuration `ValueError`; `initialize_index` on a `(path, name)` location
that already holds an index raises instead of overwriting; a store without a
`persist_directory` becomes an in-memory index with the default schema,
emitting a warning rather than an error. -/
theorem init_config_spec :
    (∀ (fs : FS) (p name : String), p.isEmpty = false → name = "" →
        initStore fs (some p) name = .error PyErr.valueErrorIndexName) ∧
    (∀ (fs : FS) (path name : String) (schema : Option (List String)),
        existsIn fs path name = true →
        initialize_index fs path name schema = .error PyErr.valueErrorIndexExists) ∧
    (∀ (fs : FS) (name : String),
        initStore fs none name =
          .ok (⟨none, name, .ram defaultIndexData⟩, fs, [ramWarning])) := by
  refine ⟨?_, ?_, ?_⟩
  · intro fs p name hp hname
    subst hname
    have h0 : "".isEmpty = true := by decide
    simp [initStore, truthyOpt, hp, h0]
  · intro fs path name schema hex
    simp [initialize_index, hex]
  · intro fs name
    simp [initStore, truthyOpt]

/-- Concrete instance of C7: empty index name rejected, duplicate create
rejected, in-memory fallback warns. -/
theorem init_config_spec_witness :
    initStore [] (some "/idx") "" = .error PyErr.valueErrorIndexName ∧
    initialize_index [(("/idx", "i"), defaultIndexData)] "/idx" "i" none =
      .error PyErr.valueErrorIndexExists ∧
    initStore [] none "myindex" =
      .ok (⟨none, "myindex", .ram defaultIndexData⟩, [], [ramWarning]) :=
  ⟨init_config_spec.1 [] "/idx" "" (by decide) rfl,
   init_config_spec.2.1 [(("/idx", "i"), defaultIndexData)] "/idx" "i" none (by decide),
   init_config_spec.2.2 [] "myindex"⟩

/-- Claim C8: `erase` never reassigns the live index handle — whenever it returns,
the store state (in particular `self.ix`) is exactly the pre-call state, so
subsequent operations go through the pre-erase handle. -/
theorem erase_preserves_ix (s : StoreState) (fs : FS) (confirm : Bool)
    (input : String) (s' : StoreState) (fs' : FS) (b : Bool)
    (h : erase s fs confirm input = .ok (s', fs', b)) :
    s' = s ∧ s'.ix = s.ix := by
  rcases s with ⟨pd, iname, ix⟩
  simp only [erase] at h
  repeat' split at h
  all_goals first
    | exact Except.noConfusion h
    | (simp only [Except.ok.injEq, Prod.mk.injEq] at h
       exact ⟨h.1.symm, by rw [← h.1]⟩)

/-- Witness for claim C8 at a concrete input: declining the confirmation leaves the handle (and
the whole store state) unchanged. -/
theorem erase_preserves_ix_witness :
    erase ⟨some "/d", "i", .disk "/d" "i"⟩ [] true "n" =
      .ok (⟨some "/d", "i", .disk "/d" "i"⟩, [], false) ∧
    ((⟨some "/d", "i", .disk "/d" "i"⟩ : StoreState) = ⟨some "/d", "i", .disk "/d" "i"⟩ ∧
     (⟨some "/d", "i", .disk "/d" "i"⟩ : StoreState).ix =
       (⟨some "/d", "i", .disk "/d" "i"⟩ : StoreState).ix) :=
  ⟨by decide,
   erase_preserves_ix ⟨some "/d", "i", .disk "/d" "i"⟩ [] true "n"
     ⟨some "/d", "i", .disk "/d" "i"⟩ [] false (by decide)⟩

/-- Claim C2: for a persistent store whose handle points at its own
`(persist_directory, index_name)` location (as `__init__` establishes):
declining the interactive confirmation leaves storage untouched and returns
`False`; `erase(confirm=False)` on an existing index destroys and recreates
it with the default schema, after which `get_size()` reports `0`, and
returns `True`; when the target index does not exist, `erase` is a no-op
returning `False` rather than an error, for every confirmation mode. -/
theorem erase_gate_spec (fs : FS) (p name : String) :
    (∀ input, input ≠ "Y" →
       erase ⟨some p, name, .disk p name⟩ fs true input =
         .ok (⟨some p, name, .disk p name⟩, fs, false)) ∧
    (existsIn fs p name = true → ∀ input,
       erase ⟨some p, name, .disk p name⟩ fs false input =
         .ok (⟨some p, name, .disk p name⟩, fsSet fs p name defaultIndexData, true) ∧
       get_size (fsSet fs p name defaultIndexData) ⟨some p, name, .disk p name⟩ = .ok 0) ∧
    (existsIn fs p name = false → ∀ (confirm : Bool) (input : String),
       erase ⟨some p, name, .disk p name⟩ fs confirm input =
         .ok (⟨some p, name, .disk p name⟩, fs, false)) := by
  refine ⟨?_, ?_, ?_⟩
  · intro input hin
    have hne : (input == "Y") = false := by
      rw [beq_eq_false_iff_ne]
      exact hin
    simp [erase, hne]
  · intro hex input
    refine ⟨by simp [erase, hex], ?_⟩
    simp [get_size, fsGet_fsSet, defaultIndexData]
  · intro hex confirm input
    cases confirm <;> simp [erase, hex]

/-- Witness for claim C2 at concrete inputs: one stored document; declining leaves it, erasing
with `confirm=False` empties the index. -/
theorem erase_gate_spec_witness :
    erase ⟨some "/d", "i", .disk "/d" "i"⟩ [(("/d", "i"), ⟨DEFAULT_STORED_NAMES, [[("source", "a")]]⟩)]
        true "n" =
      .ok (⟨some "/d", "i", .disk "/d" "i"⟩,
           [(("/d", "i"), ⟨DEFAULT_STORED_NAMES, [[("source", "a")]]⟩)], false) ∧
    erase ⟨some "/d", "i", .disk "/d" "i"⟩ [(("/d", "i"), ⟨DEFAULT_STORED_NAMES, [[("source", "a")]]⟩)]
        false "" =
      .ok (⟨some "/d", "i", .disk "/d" "i"⟩,
           fsSet [(("/d", "i"), ⟨DEFAULT_STORED_NAMES, [[("source", "a")]]⟩)] "/d" "i" defaultIndexData,
           true) ∧
    get_size (fsSet [(("/d", "i"), ⟨DEFAULT_STORED_NAMES, [[("source", "a")]]⟩)] "/d" "i" defaultIndexData)
        ⟨some "/d", "i", .disk "/d" "i"⟩ = .ok 0 :=
  ⟨(erase_gate_spec [(("/d", "i"), ⟨DEFAULT_STORED_NAMES, [[("source", "a")]]⟩)] "/d" "i").1 "n"
     (by decide),
   ((erase_gate_spec [(("/d", "i"), ⟨DEFAULT_STORED_NAMES, [[("source", "a")]]⟩)] "/d" "i").2.1
     (by decide) "").1,
   ((erase_gate_spec [(("/d", "i"), ⟨DEFAULT_STORED_NAMES, [[("source", "a")]]⟩)] "/d" "i").2.1
     (by decide) "").2⟩

/-- Characterisation of the modelled `math.ceil(t / l)` for a positive
divisor. -/
theorem mathCeilDiv_le_iff {t : Nat} {l c : Int} (hl : 0 < l) :
    mathCeilDiv t l ≤ c ↔ (t : Int) ≤ c * l := by
  unfold mathCeilDiv
  rw [neg_le, Int.le_ediv_iff_mul_le hl, neg_mul, neg_le_neg_iff]

/-- `queryFn` on page 1 with a valid limit: a plain limited search, hits are
the processed window, `total_hits` is the window's length. -/
theorem queryFn_page1 (am : MatchFn) (hlf : HighlightFn) (q : String)
    (fields : List String) (hl : Bool) (rd : Bool)
    (filters : List (String × String)) (wd : Option String) {limit : Int}
    (hL : 1 ≤ limit) :
    queryFn am hlf q fields hl limit 1 rd filters wd =
      .ok ⟨((fullMatches am fields q filters wd).take limit.toNat).map
             (process_result hlf fields hl rd),
           ((fullMatches am fields q filters wd).take limit.toNat).length⟩ := by
  have hlim : ¬(limit < 1) := by omega
  have hne : limit ≠ 0 := by omega
  unfold queryFn fullMatches
  simp only [if_pos rfl, if_neg hlim, mathCeilDivChecked, if_neg hne]
  set res := ((am fields (composeWhere (preprocess_query q) wd) (combinedFilter filters)).take
    limit.toNat) with hres
  by_cases hc : (1 : Int) > mathCeilDiv res.length limit
  · have h0 : mathCeilDiv res.length limit ≤ 0 := by omega
    have : (res.length : Int) ≤ 0 * limit := (mathCeilDiv_le_iff (by omega)).mp h0
    have hlen : res.length = 0 := by omega
    have hnil : res = [] := List.eq_nil_of_length_eq_zero hlen
    simp [if_pos hc, hnil]
  · simp [if_neg hc]

/-- Claim C10: `get_doc(id)` issues the id-field query `id:{id}` (defaults:
`fields=["page_content"]`, `limit=10`, `page=1`, dict results) and returns
the first hit, or `None` — never an error — when the query has no hits. -/
theorem get_doc_spec (am : MatchFn) (hlf : HighlightFn) (id : String) :
    get_doc am hlf id =
      .ok (((fullMatches am ["page_content"] ("id:" ++ id) [] none).take 10).map
             (process_result hlf ["page_content"] true true)).head? ∧
    (fullMatches am ["page_content"] ("id:" ++ id) [] none = [] →
      get_doc am hlf id = .ok none) := by
  have hq := queryFn_page1 am hlf ("id:" ++ id) ["page_content"] true true [] none
    (show (1 : Int) ≤ 10 by omega)
  constructor
  · unfold get_doc
    rw [hq]
    simp
  · intro hnil
    unfold get_doc
    rw [hq]
    simp [hnil]

/-- Witness for claim C10 at concrete inputs: an engine with no match for the id query yields
`none`; one with a match yields the processed first hit. -/
theorem get_doc_spec_witness :
    get_doc (fun _ _ _ => []) (fun _ _ => "") "xyz" = .ok none ∧
    (fullMatches (fun _ _ _ => []) ["page_content"] ("id:" ++ "xyz") [] none = [] →
      get_doc (fun _ _ _ => []) (fun _ _ => "") "xyz" = .ok none) :=
  ⟨(get_doc_spec (fun _ _ _ => []) (fun _ _ => "") "xyz").2 (by decide),
   (get_doc_spec (fun _ _ _ => []) (fun _ _ => "") "xyz").2⟩

/-- Counterexample for claim C3: preprocessing does not remove all trailing question
marks — `"abc???"` keeps two of its three trailing `'?'` (only the
`query[:-1]` strip plus one regex match fire), so the output still ends in
`'?'`, contradicting "removes trailing `?` characters from the end of the
query". -/
theorem preprocess_qmark_counterexample :
    preprocess_query "abc???" = "abc??" ∧
    (preprocess_query "abc???").data.getLast? = some '?' := by
  decide

/-- Claim C3, amended: preprocessing strips a single trailing `'?'` from the
query end (plus at most one more via the word-boundary rule), so a query
formed by appending one `'?'` to a text not already ending in `'?'` —
e.g. `"climate change?"` vs `"climate change"` — produces exactly the same
result dictionary (hit list, ordering, and `total_hits`) on every engine,
field list, limit, page and filter. -/
theorem query_single_qmark_amended (am : MatchFn) (hlf : HighlightFn)
    (q₁ q₂ : String) (fields : List String) (hl : Bool) (limit page : Int)
    (rd : Bool) (filters : List (String × String)) (wd : Option String)
    (hdata : q₂.data = q₁.data ++ ['?'])
    (hq : q₁.data.getLast? ≠ some '?') :
    queryFn am hlf q₂ fields hl limit page rd filters wd =
      queryFn am hlf q₁ fields hl limit page rd filters wd := by
  have hpre : preprocess_query q₂ = preprocess_query q₁ := by
    unfold preprocess_query stripTrailingQmark
    rw [hdata, List.getLast?_concat, List.dropLast_concat, if_pos rfl, if_neg hq]
  unfold queryFn
  rw [hpre]

/-- Witness for claim C3: `"climate change?"` and `"climate change"` give identical
results on a concrete engine. -/
theorem query_single_qmark_amended_witness :
    ("climate change?".data = "climate change".data ++ ['?'] ∧
     "climate change".data.getLast? ≠ some '?') ∧
    queryFn (fun _ _ _ => [[("page_content", PyVal.pstr "climate")]]) (fun _ _ => "H")
        "climate change?" ["page_content"] true 10 1 true [] none =
      queryFn (fun _ _ _ => [[("page_content", PyVal.pstr "climate")]]) (fun _ _ => "H")
        "climate change" ["page_content"] true 10 1 true [] none :=
  ⟨⟨by decide, by decide⟩,
   query_single_qmark_amended (fun _ _ _ => [[("page_content", PyVal.pstr "climate")]])
     (fun _ _ => "H") "climate change" "climate change?" ["page_content"] true 10 1 true []
     none (by decide) (by decide)⟩

/-- Counterexample for claim C9: at `limit=0` the searcher's limit validation fires
before the `math.ceil(total_hits/limit)` expression is ever reached, so the
raised error is a `ValueError`, not the division-by-zero error the claim
asserts. -/
theorem query_div_zero_counterexample :
    queryFn (fun _ _ _ => []) (fun _ _ => "") "x" ["page_content"] true 0 1 true [] none =
      .error PyErr.valueErrorLimit ∧
    PyErr.valueErrorLimit ≠ PyErr.zeroDivisionError := by
  decide

/-- Claim C9, amended: a call with `limit=0` (indeed any `limit ≤ 0`) never
returns a result set, but the failure is the engine's
`ValueError("limit must be >= 1")` (or its page-number validation when
`page < 1`), raised before `ceil(total_hits/limit)` is evaluated; `query`
can only return normally when `limit ≥ 1`. -/
theorem query_nonpositive_limit_amended (am : MatchFn) (hlf : HighlightFn)
    (q : String) (fields : List String) (hl : Bool) (rd : Bool)
    (filters : List (String × String)) (wd : Option String) (limit page : Int)
    (hlim : limit ≤ 0) :
    queryFn am hlf q fields hl limit page rd filters wd =
      .error (if page < 1 then PyErr.valueErrorPagenum else PyErr.valueErrorLimit) := by
  by_cases hp1 : page = 1
  · subst hp1
    have h1 : limit < 1 := by omega
    have h2 : ¬((1 : Int) < 1) := by omega
    simp [queryFn, h1, h2]
  · by_cases hp0 : page < 1
    · simp [queryFn, hp1, hp0]
    · have hmul : page * limit < 1 := by
        have h : page * limit ≤ 0 :=
          mul_nonpos_iff.mpr (Or.inl ⟨show (0 : Int) ≤ page by omega, hlim⟩)
        omega
      simp [queryFn, hp1, hp0, hmul]

/-- Witness for claim C9: the amended statement at `limit = 0`, `page = 1`. -/
theorem query_nonpositive_limit_amended_witness :
    ((0 : Int) ≤ 0) ∧
    queryFn (fun _ _ _ => []) (fun _ _ => "") "x" ["page_content"] true 0 1 true [] none =
      .error (if (1 : Int) < 1 then PyErr.valueErrorPagenum else PyErr.valueErrorLimit) :=
  ⟨by decide,
   query_nonpositive_limit_amended (fun _ _ _ => []) (fun _ _ => "") "x" ["page_content"]
     true true [] none 0 1 (by decide)⟩

/-- Counterexample for claim C1: with two matching documents, `limit=1`, `page=1`, the
returned `total_hits` is `1` — the scored window's length — while the full
unpaginated match count is `2`; and requesting `page=3` (beyond
`ceil(2/1)=2`) raises the engine's page-bound `ValueError` instead of
returning an empty hit list with the full count. -/
theorem query_total_hits_counterexample :
    queryFn (fun _ _ _ => [[("page_content", PyVal.pstr "x a")], [("page_content", PyVal.pstr "x b")]])
        (fun _ _ => "H") "x" ["page_content"] true 1 1 true [] none =
      .ok ⟨[[("page_content", PyVal.pstr "x a"), ("hl_page_content", PyVal.pstr "H")]], 1⟩ ∧
    (fullMatches (fun _ _ _ => [[("page_content", PyVal.pstr "x a")], [("page_content", PyVal.pstr "x b")]])
        ["page_content"] "x" [] none).length = 2 ∧
    queryFn (fun _ _ _ => [[("page_content", PyVal.pstr "x a")], [("page_content", PyVal.pstr "x b")]])
        (fun _ _ => "H") "x" ["page_content"] true 1 3 true [] none =
      .error PyErr.valueErrorPage := by
  decide

/-- Claim C1, amended: `total_hits` is the scored-window length, not the
unpaginated count: for `page = 1` the call returns the first
`limit` matches with `total_hits = min(limit, count)`; for `page ≥ 2` within
`ceil(count/limit)` it returns the page window with
`total_hits = min(page·limit, count)`; and for `page ≥ 2` beyond
`ceil(count/limit)` the engine raises its page-bound `ValueError` rather
than returning an empty hit list. -/
theorem query_total_hits_amended (am : MatchFn) (hlf : HighlightFn) (q : String)
    (fields : List String) (hl rd : Bool) (filters : List (String × String))
    (wd : Option String) (limit page : Int) (hL : 1 ≤ limit) :
    (page = 1 →
      queryFn am hlf q fields hl limit page rd filters wd =
        .ok ⟨((fullMatches am fields q filters wd).take limit.toNat).map
               (process_result hlf fields hl rd),
             min limit.toNat (fullMatches am fields q filters wd).length⟩) ∧
    (2 ≤ page → page ≤ mathCeilDiv (fullMatches am fields q filters wd).length limit →
      queryFn am hlf q fields hl limit page rd filters wd =
        .ok ⟨((((fullMatches am fields q filters wd).take (page * limit).toNat).drop
                 ((page - 1) * limit).toNat).take limit.toNat).map
               (process_result hlf fields hl rd),
             min (page * limit).toNat (fullMatches am fields q filters wd).length⟩) ∧
    (2 ≤ page → mathCeilDiv (fullMatches am fields q filters wd).length limit < page →
      queryFn am hlf q fields hl limit page rd filters wd = .error PyErr.valueErrorPage) := by
  have hl0 : (0 : Int) < limit := by omega
  have hne : limit ≠ 0 := by omega
  refine ⟨?_, ?_, ?_⟩
  · intro hp1
    subst hp1
    rw [queryFn_page1 am hlf q fields hl rd filters wd hL]
    simp [List.length_take]
  · intro hp2 hpc
    have hp1 : ¬(page = 1) := by omega
    have hpneg : ¬(page < 1) := by omega
    have hBpos : (1 : Int) ≤ page * limit := by
      have h := le_mul_of_one_le_right (show (0 : Int) ≤ page by omega) hL
      omega
    have hmul : ¬(page * limit < 1) := by omega
    have hpagecount : ¬(page > mathCeilDiv (fullMatches am fields q filters wd).length limit) := by
      omega
    have hfinal :
        ¬(page > mathCeilDiv
            (((fullMatches am fields q filters wd).take (page * limit).toNat).length) limit) := by
      rw [List.length_take]
      intro hcon
      have h1 : mathCeilDiv
          (min (page * limit).toNat (fullMatches am fields q filters wd).length) limit ≤
            page - 1 := by omega
      have h2 := (mathCeilDiv_le_iff hl0).mp h1
      have h3 : ¬(mathCeilDiv (fullMatches am fields q filters wd).length limit ≤ page - 1) := by
        omega
      have h4 : ¬(((fullMatches am fields q filters wd).length : Int) ≤ (page - 1) * limit) :=
        fun hc => h3 ((mathCeilDiv_le_iff hl0).mpr hc)
      have hAB : (page - 1) * limit + limit = page * limit := by ring
      omega
    simp only [queryFn, fullMatches] at *
    rw [if_neg hp1, if_neg hpneg, if_neg hmul, if_neg hpagecount]
    simp only [mathCeilDivChecked, if_neg hne]
    rw [if_neg hfinal, List.length_take]
  · intro hp2 hpc
    have hp1 : ¬(page = 1) := by omega
    have hpneg : ¬(page < 1) := by omega
    have hBpos : (1 : Int) ≤ page * limit := by
      have h := le_mul_of_one_le_right (show (0 : Int) ≤ page by omega) hL
      omega
    have hmul : ¬(page * limit < 1) := by omega
    have hpagecount : page > mathCeilDiv (fullMatches am fields q filters wd).length limit := by
      omega
    simp only [queryFn, fullMatches] at *
    rw [if_neg hp1, if_neg hpneg, if_neg hmul, if_pos hpagecount]

/-- Witness for claim C1: the amended statement at two matches, `limit=1`, `page=2` —
the second page holds the second match and `total_hits` is `2`. -/
theorem query_total_hits_amended_witness :
    ((1 : Int) ≤ 1) ∧
    queryFn (fun _ _ _ => [[("page_content", PyVal.pstr "x a")], [("page_content", PyVal.pstr "x b")]])
        (fun _ _ => "H") "x" ["page_content"] true 1 2 true [] none =
      .ok ⟨[[("page_content", PyVal.pstr "x b"), ("hl_page_content", PyVal.pstr "H")]], 2⟩ :=
  ⟨by decide,
   Eq.trans
     ((query_total_hits_amended
        (fun _ _ _ => [[("page_content", PyVal.pstr "x a")], [("page_content", PyVal.pstr "x b")]])
        (fun _ _ => "H") "x" ["page_content"] true true [] none 1 2 (by decide)).2.1
        (by decide) (by decide))
     (by decide)⟩

/-- Insertion keeps only the inserted element and the old ones. -/
theorem mem_insertByScoreDesc {x y : Hitd} {l : List Hitd}
    (h : y ∈ insertByScoreDesc x l) : y = x ∨ y ∈ l := by
  induction l with
  | nil => simpa [insertByScoreDesc] using h
  | cons z t ih =>
    by_cases hc : getScore x ≤ getScore z
    · rw [insertByScoreDesc, if_pos hc] at h
      rcases List.mem_cons.mp h with h1 | h2
      · exact Or.inr (by simp [h1])
      · rcases ih h2 with h3 | h4
        · exact Or.inl h3
        · exact Or.inr (List.mem_cons_of_mem _ h4)
    · rw [insertByScoreDesc, if_neg hc] at h
      rcases List.mem_cons.mp h with h1 | h2
      · exact Or.inl h1
      · exact Or.inr h2

/-- Sorting draws every element from the input list. -/
theorem mem_sortByScoreDesc {y : Hitd} {l : List Hitd}
    (h : y ∈ sortByScoreDesc l) : y ∈ l := by
  induction l with
  | nil => simp [sortByScoreDesc] at h
  | cons x t ih =>
    rw [sortByScoreDesc] at h
    rcases mem_insertByScoreDesc h with h1 | h2
    · simp [h1]
    · exact List.mem_cons_of_mem _ (ih h2)

/-- Insertion preserves the non-increasing-score invariant. -/
theorem insertByScoreDesc_pairwise {x : Hitd} {l : List Hitd}
    (h : l.Pairwise (fun a b => getScore b ≤ getScore a)) :
    (insertByScoreDesc x l).Pairwise (fun a b => getScore b ≤ getScore a) := by
  induction l with
  | nil => simp [insertByScoreDesc]
  | cons z t ih =>
    rcases List.pairwise_cons.mp h with ⟨hz, ht⟩
    by_cases hc : getScore x ≤ getScore z
    · rw [insertByScoreDesc, if_pos hc]
      refine List.pairwise_cons.mpr ⟨?_, ih ht⟩
      intro b hb
      rcases mem_insertByScoreDesc hb with h1 | h2
      · rw [h1]; exact hc
      · exact hz b h2
    · rw [insertByScoreDesc, if_neg hc]
      refine List.pairwise_cons.mpr ⟨?_, h⟩
      intro b hb
      rcases List.mem_cons.mp hb with h1 | h2
      · rw [h1]
        exact le_of_lt (lt_of_not_le hc)
      · exact le_trans (hz b h2) (le_of_lt (lt_of_not_le hc))

/-- The reranker's descending sort is sorted by non-increasing score. -/
theorem sortByScoreDesc_pairwise (l : List Hitd) :
    (sortByScoreDesc l).Pairwise (fun a b => getScore b ≤ getScore a) := by
  induction l with
  | nil => simp [sortByScoreDesc]
  | cons x t ih =>
    rw [sortByScoreDesc]
    exact insertByScoreDesc_pairwise ih

/-- Setting a dict key makes lookup return the new value. -/
theorem lookup_dictSet (h : Hitd) (k : String) (v : PyVal) :
    (dictSet h k v).lookup k = some v := by
  unfold dictSet
  induction h with
  | nil => simp [List.lookup]
  | cons p t ih =>
    by_cases hp : p.1 = k
    · simpa [List.filter_cons, hp] using ih
    · have hb : (k == p.1) = false := by
        rw [beq_eq_false_iff_ne]
        exact fun hc => hp hc.symm
      simpa [List.filter_cons, hp, List.lookup, hb] using ih

/-- The attached score is retrievable from the reranked dict. -/
theorem getScore_dictSet (h : Hitd) (r : Rat) :
    getScore (dictSet h "score" (PyVal.pfloat r)) = r := by
  unfold getScore
  rw [lookup_dictSet]

/-- `doc_from_dict` (modelled as identity) maps to itself over a list. -/
theorem map_doc_from_dict (l : List Hitd) : l.map doc_from_dict = l := by
  induction l with
  | nil => rfl
  | cons a t ih => simp [doc_from_dict, ih]

/-- Reduction of `semantic_search` to the candidate pool of its `query`
call (`limit = n_candidates`, `page = 1`, dict results, highlighting on). -/
theorem semantic_search_eq (am : MatchFn) (hlf : HighlightFn) (cs : CosSimFn)
    (q : String) (filters : List (String × String)) (wd : Option String)
    (k : Int) {n_candidates : Int} (hn : 1 ≤ n_candidates) :
    semantic_search am hlf cs q k n_candidates filters wd =
      (if (((fullMatches am ["page_content"] q filters wd).take n_candidates.toNat).map
             (process_result hlf ["page_content"] true true)).isEmpty then .ok []
       else
        .ok ((sortByScoreDesc
                ((((fullMatches am ["page_content"] q filters wd).take n_candidates.toNat).map
                    (process_result hlf ["page_content"] true true)).map
                  (fun h => dictSet h "score" (PyVal.pfloat (cs q (getText h)))))).take k.toNat)) := by
  unfold semantic_search
  rw [queryFn_page1 am hlf q ["page_content"] true true filters wd hn]
  by_cases hp : (((fullMatches am ["page_content"] q filters wd).take n_candidates.toNat).map
      (process_result hlf ["page_content"] true true)).isEmpty
  · simp only [hp, if_pos rfl, if_true]
  · simp only [hp, if_false]
    simp [map_doc_from_dict]

/-- Claim C6: `semantic_search(q, k, n_candidates, ...)` returns at most `k`
documents, each a member of the lexical candidate pool produced by
`query(..., limit=n_candidates)` (a pool of at most `n_candidates` members)
with its cosine similarity attached as the `score` field, ordered by
non-increasing score; and an empty candidate pool yields an empty result
regardless of the embedding provider (which is never invoked). -/
theorem semantic_search_spec (am : MatchFn) (hlf : HighlightFn) (cs cs' : CosSimFn)
    (q : String) (filters : List (String × String)) (wd : Option String)
    (k n_candidates : Int) (hk : 0 ≤ k) (hn : 1 ≤ n_candidates) :
    ∃ out, semantic_search am hlf cs q k n_candidates filters wd = .ok out ∧
      out.length ≤ k.toNat ∧
      (((fullMatches am ["page_content"] q filters wd).take n_candidates.toNat).map
          (process_result hlf ["page_content"] true true)).length ≤ n_candidates.toNat ∧
      (∀ h ∈ out,
        ∃ c ∈ ((fullMatches am ["page_content"] q filters wd).take n_candidates.toNat).map
                (process_result hlf ["page_content"] true true),
          h = dictSet c "score" (PyVal.pfloat (cs q (getText c))) ∧
          getScore h = cs q (getText c)) ∧
      out.Pairwise (fun a b => getScore b ≤ getScore a) ∧
      ((((fullMatches am ["page_content"] q filters wd).take n_candidates.toNat).map
          (process_result hlf ["page_content"] true true)) = [] →
        out = [] ∧
        semantic_search am hlf cs' q k n_candidates filters wd = .ok []) := by
  have hlenpool :
      (((fullMatches am ["page_content"] q filters wd).take n_candidates.toNat).map
          (process_result hlf ["page_content"] true true)).length ≤ n_candidates.toNat := by
    rw [List.length_map, List.length_take]
    omega
  rw [semantic_search_eq am hlf cs q filters wd k hn]
  by_cases hp : (((fullMatches am ["page_content"] q filters wd).take n_candidates.toNat).map
      (process_result hlf ["page_content"] true true)).isEmpty
  · rw [if_pos hp]
    refine ⟨[], rfl, by simp, hlenpool, by simp, by simp, ?_⟩
    intro _
    refine ⟨rfl, ?_⟩
    rw [semantic_search_eq am hlf cs' q filters wd k hn, if_pos hp]
  · rw [if_neg hp]
    have hnil : ¬(((fullMatches am ["page_content"] q filters wd).take n_candidates.toNat).map
        (process_result hlf ["page_content"] true true)) = [] := by
      simpa [List.isEmpty_iff] using hp
    refine ⟨_, rfl, ?_, hlenpool, ?_, ?_, fun hc => absurd hc hnil⟩
    · rw [List.length_take]
      omega
    · intro h hmem
      have h1 : h ∈ sortByScoreDesc
          ((((fullMatches am ["page_content"] q filters wd).take n_candidates.toNat).map
              (process_result hlf ["page_content"] true true)).map
            (fun c => dictSet c "score" (PyVal.pfloat (cs q (getText c))))) :=
        List.mem_of_mem_take hmem
      have h2 := mem_sortByScoreDesc h1
      rcases List.mem_map.mp h2 with ⟨c, hc, hceq⟩
      exact ⟨c, hc, hceq.symm, by rw [← hceq, getScore_dictSet]⟩
    · exact ((sortByScoreDesc_pairwise _).sublist (List.take_sublist _ _))

/-- Witness for claim C6: two candidates, `k = 1`, integer similarity scores; the
higher-scored candidate is returned with its score attached. -/
theorem semantic_search_spec_witness :
    ((0 : Int) ≤ 1) ∧ ((1 : Int) ≤ 50) ∧
    (∃ out, semantic_search
        (fun _ _ _ => [[("page_content", PyVal.pstr "aa")], [("page_content", PyVal.pstr "bb")]])
        (fun _ _ => "H") (fun _ t => if t == "bb" then 5 else 1) "q" 1 50 [] none = .ok out ∧
      out.length ≤ (1 : Int).toNat ∧
      (((fullMatches (fun _ _ _ => [[("page_content", PyVal.pstr "aa")], [("page_content", PyVal.pstr "bb")]])
          ["page_content"] "q" [] none).take (50 : Int).toNat).map
          (process_result (fun _ _ => "H") ["page_content"] true true)).length ≤ (50 : Int).toNat ∧
      (∀ h ∈ out,
        ∃ c ∈ ((fullMatches (fun _ _ _ => [[("page_content", PyVal.pstr "aa")], [("page_content", PyVal.pstr "bb")]])
                  ["page_content"] "q" [] none).take (50 : Int).toNat).map
                (process_result (fun _ _ => "H") ["page_content"] true true),
          h = dictSet c "score" (PyVal.pfloat ((fun _ t => if t == "bb" then (5 : Rat) else 1) "q" (getText c))) ∧
          getScore h = (fun _ t => if t == "bb" then (5 : Rat) else 1) "q" (getText c)) ∧
      out.Pairwise (fun a b => getScore b ≤ getScore a) ∧
      ((((fullMatches (fun _ _ _ => [[("page_content", PyVal.pstr "aa")], [("page_content", PyVal.pstr "bb")]])
            ["page_content"] "q" [] none).take (50 : Int).toNat).map
            (process_result (fun _ _ => "H") ["page_content"] true true)) = [] →
        out = [] ∧
        semantic_search
          (fun _ _ _ => [[("page_content", PyVal.pstr "aa")], [("page_content", PyVal.pstr "bb")]])
          (fun _ _ => "H") (fun _ _ => (0 : Rat)) "q" 1 50 [] none = .ok [])) :=
  ⟨by decide, by decide,
   semantic_search_spec
     (fun _ _ _ => [[("page_content", PyVal.pstr "aa")], [("page_content", PyVal.pstr "bb")]])
     (fun _ _ => "H") (fun _ t => if t == "bb" then 5 else 1) (fun _ _ => (0 : Rat)) "q" [] none
     1 50 (by decide) (by decide)⟩
